import Mathlib

/-!
Shallow embedding of the HasText room client: the `useRoom` hook
(src/src/hooks/useRoom.ts, lines 1-272), the typing-indicator effect of the
RoomInterface component, and the backing schema (tables `rooms` with a UNIQUE
constraint on `code`, `room_members`, `messages`).

Modelling conventions:
- Timestamps are natural numbers (milliseconds), string ids stay strings.
- The backend tables are lists of rows; a select without an `order` clause
  returns rows in stored (backend) order.
- `localStorage` is modelled by the two keys the hook uses
  (`hastext-room`, `hastext-user`); `JSON.stringify`/`JSON.parse` round-trip
  is the identity, so the store holds the structured values directly.
- Sources of nondeterminism (random draws, `Date.now()`, fresh backend ids,
  backend errors) are explicit parameters of the operations.
- `toast(...)` calls are accumulated in an output list on the client state.
-/

/-- A row of the `rooms` table / the `Room` interface of useRoom.ts. -/
structure Room where
  id : String
  code : String
  name : String
  created_at : Nat
deriving DecidableEq, Repr

/-- A row of the `room_members` table / the `RoomMember` interface. -/
structure RoomMember where
  id : String
  room_id : String
  user_id : String
  display_name : String
  joined_at : Nat
  last_seen_at : Nat
  is_online : Bool
  is_typing : Bool
deriving DecidableEq, Repr

/-- A row of the `messages` table / the `Message` interface. -/
structure Message where
  id : String
  room_id : String
  user_id : String
  display_name : String
  text : String
  created_at : Nat
deriving DecidableEq, Repr

/-- The `currentUser` value `{ id, displayName }` of the hook. -/
structure UserInfo where
  id : String
  displayName : String
deriving DecidableEq, Repr

/-- The two `localStorage` keys used by the hook: `hastext-room` and
`hastext-user` (a key holds `none` when `removeItem` erased it). -/
structure LocalStore where
  room : Option Room
  user : Option UserInfo
deriving DecidableEq, Repr

/-- A `toast({title, description, variant})` notification. -/
structure Toast where
  title : String
  description : String
  destructive : Bool
deriving DecidableEq, Repr

/-- The backend database: the three tables, each a list of rows in stored
order. -/
structure DB where
  rooms : List Room
  room_members : List RoomMember
  messages : List Message
deriving DecidableEq, Repr

/-- The client-side state of `useRoom()`: the React state cells
(`currentRoom`, `currentUser`, `members`, `messages`, `typingUsers`), the
persisted store, and the toasts emitted so far. -/
structure ClientState where
  currentRoom : Option Room
  currentUser : Option UserInfo
  members : List RoomMember
  messages : List Message
  typingUsers : List String
  store : LocalStore
  toasts : List Toast
deriving DecidableEq, Repr

/-- Emit a toast. -/
def pushToast (st : ClientState) (t : Toast) : ClientState :=
  { st with toasts := st.toasts ++ [t] }

/-- The destructive toast `{ title: "Error", description: msg }` used by the
catch blocks of createRoom and joinRoom. -/
def errorToast (msg : String) : Toast :=
  { title := "Error", description := msg, destructive := true }

/-- One base-36 digit character as produced by JavaScript `Number.toString(36)`
(`0`-`9` for 0..9, lower-case `a`-`z` for 10..35). -/
def base36Char (d : Nat) : Char :=
  if d < 10 then Char.ofNat (48 + d) else Char.ofNat (87 + d)

/-- JavaScript `r.toString(36)` for a double `0 ≤ r < 1`, presented by the
base-36 digits of its fractional expansion in shortest form (no trailing zero
digit; the empty list stands for `r = 0`). `0` prints as `"0"`, any other
value as `"0."` followed by its digits. -/
def jsToString36 (digits : List Nat) : String :=
  if digits.isEmpty then "0"
  else "0." ++ String.mk (digits.map base36Char)

/-- JavaScript `s.substring(a, b)`: the characters at indices `[a, b)`,
clamped to the length of the string. -/
def jsSubstring (s : String) (a b : Nat) : String :=
  String.mk ((s.toList.drop a).take (b - a))

/-- JavaScript `s.toUpperCase()` (on the ASCII strings this client builds). -/
def jsToUpperCase (s : String) : String :=
  String.mk (s.toList.map Char.toUpper)

/-- JavaScript `s.trim()`: strip leading and trailing whitespace. -/
def isJsWhitespace (c : Char) : Bool :=
  c == ' ' || c == '\t' || c == '\n' || c == '\r' || c == '\x0b' || c == '\x0c'

/-- JavaScript `s.trim()` modelled on the character list: drop the whitespace
prefix and the whitespace suffix. -/
def jsTrim (s : String) : String :=
  String.mk (((s.toList.dropWhile isJsWhitespace).reverse.dropWhile isJsWhitespace).reverse)

/-- `generateRoomCode` (useRoom.ts line 53):
`Math.random().toString(36).substring(2, 8).toUpperCase()`, as a function of
the base-36 fractional digits of the random draw. -/
def generateRoomCode (digits : List Nat) : String :=
  jsToUpperCase (jsSubstring (jsToString36 digits) 2 8)

/-- Supabase `from("rooms").insert({code, name}).select().single()`: the UNIQUE
constraint on `rooms.code` rejects a duplicate code (unique-violation error,
returning `none`); otherwise the backend fills in `id` and `created_at`,
appends the row and returns it. -/
def roomsInsert (db : DB) (freshId : String) (now : Nat) (code name : String) :
    DB × Option Room :=
  if db.rooms.any (fun r => r.code == code) then (db, none)
  else
    let room : Room := { id := freshId, code := code, name := name, created_at := now }
    ({ db with rooms := db.rooms ++ [room] }, some room)

/-- Writing the session to React state and to `localStorage`
(useRoom.ts lines 104-110): `setCurrentRoom`, `setCurrentUser`, and
`setItem` on both persisted keys. -/
def setSession (st : ClientState) (room : Room) (user : UserInfo) : ClientState :=
  { st with currentRoom := some room, currentUser := some user,
            store := { room := some room, user := some user } }

/-- `joinRoom(roomCode, displayName)` (useRoom.ts lines 79-118).
`freshUserId` models `"user-" + Date.now() + "-" + Math.random()...`: a fresh
identifier minted on every call (this hook keeps no stable per-browser user
id). `memberInsertError` is the error reported by the `room_members` insert
(`none` on success; an error means no row was stored). The code throws --
and so leaves all local state untouched -- when the room lookup fails or when
the insert reports error code 23505; any other insert error is ignored and the
session is still established. -/
def joinRoom (db : DB) (st : ClientState) (roomCode displayName : String)
    (freshUserId freshMemberId : String) (now : Nat)
    (memberInsertError : Option String) : DB × ClientState :=
  match db.rooms.find? (fun r => r.code == jsToUpperCase roomCode) with
  | none => (db, pushToast st (errorToast "Room not found"))
  | some room =>
    match memberInsertError with
    | some c =>
      if c == "23505" then
        (db, pushToast st (errorToast "That name is already taken in this room."))
      else
        (db, setSession st room { id := freshUserId, displayName := displayName })
    | none =>
      let row : RoomMember :=
        { id := freshMemberId, room_id := room.id, user_id := freshUserId,
          display_name := displayName, joined_at := now, last_seen_at := now,
          is_online := true, is_typing := false }
      ({ db with room_members := db.room_members ++ [row] },
       setSession st room { id := freshUserId, displayName := displayName })

/-- `createRoom(roomName, displayName)` (useRoom.ts lines 56-76): generate one
code, attempt one insert. An insert error (including a code-uniqueness
conflict) is thrown to the catch block, which surfaces it as a destructive
toast; nothing is retried. On success the creator joins the room and a
confirmation toast is shown. `roomName || ...`: the empty string is falsy, so
an empty name defaults to `"Room " + code`. -/
def createRoom (db : DB) (st : ClientState) (roomName displayName : String)
    (digits : List Nat) (freshRoomId freshUserId freshMemberId : String)
    (now : Nat) (memberInsertError : Option String) : DB × ClientState :=
  let code := generateRoomCode digits
  match roomsInsert db freshRoomId now code
      (if roomName == "" then "Room " ++ code else roomName) with
  | (_, none) =>
      (db, pushToast st (errorToast "duplicate key value violates unique constraint"))
  | (db1, some _) =>
      let res := joinRoom db1 st code displayName freshUserId freshMemberId now
        memberInsertError
      (res.1, pushToast res.2
        { title := "Room created!", description := "Room code: " ++ code,
          destructive := false })

/-- `leaveRoom()` (useRoom.ts lines 121-139): if a session is active, update
the member row to offline server-side; then `removeItem` on both persisted
keys and reset `currentRoom`, `currentUser`, `members`, `messages`. The
`typingUsers` state cell is not touched. -/
def leaveRoom (db : DB) (st : ClientState) (now : Nat) : DB × ClientState :=
  let db' :=
    match st.currentRoom, st.currentUser with
    | some room, some user =>
        { db with room_members := db.room_members.map (fun m =>
            if m.room_id == room.id && m.user_id == user.id then
              { m with is_online := false, is_typing := false, last_seen_at := now }
            else m) }
    | _, _ => db
  (db', { st with currentRoom := none, currentUser := none,
                  members := [], messages := [],
                  store := { room := none, user := none } })

/-- The initial state of a fresh `useRoom()` mount (useRoom.ts lines 33-50):
`currentRoom` and `currentUser` are read back from the persisted store
(`getItem` + `JSON.parse`, `null` when absent); every other cell starts
empty. -/
def initClientState (store : LocalStore) : ClientState :=
  { currentRoom := store.room, currentUser := store.user,
    members := [], messages := [], typingUsers := [], store := store,
    toasts := [] }

/-- `sendMessage(text)` (useRoom.ts lines 142-150): a no-op unless a session is
active and `text.trim()` is non-empty (the empty string is falsy); otherwise
insert the trimmed text (the backend fills in `id` and `created_at`). -/
def sendMessage (db : DB) (st : ClientState) (text : String)
    (freshId : String) (now : Nat) : DB × ClientState :=
  match st.currentRoom, st.currentUser with
  | some room, some user =>
      if jsTrim text == "" then (db, st)
      else
        ({ db with messages := db.messages ++
            [{ id := freshId, room_id := room.id, user_id := user.id,
               display_name := user.displayName, text := jsTrim text,
               created_at := now }] }, st)
  | _, _ => (db, st)

/-- `deleteMessage(id)` (useRoom.ts lines 153-170). The supabase delete removes
exactly the rows matching all three `.eq` filters (`id`, `room_id`,
`user_id`) and reports an error only on a backend failure -- a delete
matching zero rows is a success with no error -- modelled by `backendError`.
On an error a "Delete failed" toast is shown and the local list is left
untouched; otherwise the id is filtered out of the local list. -/
def deleteMessage (db : DB) (st : ClientState) (id : String)
    (backendError : Option String) : DB × ClientState :=
  match st.currentRoom, st.currentUser with
  | some room, some user =>
    match backendError with
    | some msg =>
        (db, pushToast st
          { title := "Delete failed", description := msg, destructive := true })
    | none =>
        ({ db with messages := db.messages.filter (fun m =>
             !(m.id == id && m.room_id == room.id && m.user_id == user.id)) },
         { st with messages := st.messages.filter (fun m => m.id != id) })
  | _, _ => (db, st)

/-- `loadMessages(roomId)` (useRoom.ts lines 173-180): select the room's
messages ordered by `created_at` ascending. -/
def loadMessages (db : DB) (st : ClientState) (roomId : String) : ClientState :=
  { st with messages :=
      (List.insertionSort (fun a b => a.created_at ≤ b.created_at)
        (db.messages.filter (fun m => m.room_id == roomId))) }

/-- `loadMembers(roomId)` (useRoom.ts lines 182-194): select the room's rows
with `is_online = true`. No `order` clause is requested, so the rows come back
in backend order. Also derives `typingUsers`: the display names of the online
members flagged `is_typing` other than the current user (when `currentUser` is
null, `m.user_id !== undefined` holds for every row). -/
def loadMembers (db : DB) (st : ClientState) (roomId : String) : ClientState :=
  let data := db.room_members.filter (fun m => m.room_id == roomId && m.is_online)
  { st with members := data,
            typingUsers := (data.filter (fun m =>
                m.is_typing &&
                  (match st.currentUser with
                   | some u => m.user_id != u.id
                   | none => true))).map (fun m => m.display_name) }

/-- `updateTyping(isTyping)` (useRoom.ts lines 197-204): update the `is_typing`
field of the current member row; a no-op without an active session. -/
def updateTyping (db : DB) (st : ClientState) (isTyping : Bool) : DB :=
  match st.currentRoom, st.currentUser with
  | some room, some user =>
      { db with room_members := db.room_members.map (fun m =>
          if m.room_id == room.id && m.user_id == user.id then
            { m with is_typing := isTyping } else m) }
  | _, _ => db

/-- The messages INSERT subscription handler (useRoom.ts lines 212-223):
`(payload) => setMessages(prev => [...prev, payload.new])`. -/
def onMessageInsert (st : ClientState) (row : Message) : ClientState :=
  { st with messages := st.messages ++ [row] }

/-- The messages DELETE subscription handler (useRoom.ts lines 224-236):
remove the matching id from the local list. -/
def onMessageDelete (st : ClientState) (old : Message) : ClientState :=
  { st with messages := st.messages.filter (fun m => m.id != old.id) }

/-- State of the typing-indicator effect of RoomInterface: the remote
`is_typing` value last written through `updateTyping`, and the deadline (ms)
of the single pending `setTimeout` clear, if any. -/
structure TypingDebounce where
  remoteTyping : Bool
  pendingClear : Option Nat
deriving DecidableEq, Repr

/-- One run of the RoomInterface `useEffect([messageText])` body at time `t`
(ms). React first runs the previous cleanup, whose `clearTimeout` cancels any
pending clear; then: an empty text writes `is_typing=false` and schedules
nothing, a non-empty text writes `is_typing=true` and schedules a clear at
`t + 1500`. -/
def typingOnChange (t : Nat) (text : String) (_s : TypingDebounce) : TypingDebounce :=
  if text == "" then { remoteTyping := false, pendingClear := none }
  else { remoteTyping := true, pendingClear := some (t + 1500) }

/-- Time advancing to `t` with no further change events: the pending
`setTimeout` fires once its deadline is reached, writing `is_typing=false`. -/
def typingElapse (t : Nat) (s : TypingDebounce) : TypingDebounce :=
  match s.pendingClear with
  | some d => if d ≤ t then { remoteTyping := false, pendingClear := none } else s
  | none => s

/-! Concrete fixtures used by the closed witnesses and counterexamples. -/

/-- A room with code "ABCDEF". -/
def roomR : Room := { id := "r1", code := "ABCDEF", name := "Test", created_at := 0 }

/-- The browser user of this client, "Bob". -/
def bob : UserInfo := { id := "bob", displayName := "Bob" }

/-- A message written by another user, "alice", in room "r1". -/
def msgA : Message :=
  { id := "m1", room_id := "r1", user_id := "alice", display_name := "Alice",
    text := "hi", created_at := 1 }

/-- Empty persisted store (Anonymous). -/
def emptyStore : LocalStore := { room := none, user := none }

/-- Fresh Anonymous client state. -/
def st0 : ClientState := initClientState emptyStore

/-- Database holding only room "r1". -/
def dbR : DB := { rooms := [roomR], room_members := [], messages := [] }

/-- Database holding room "r1" and Alice's message. -/
def db1 : DB := { rooms := [roomR], room_members := [], messages := [msgA] }

/-- Bob's client state inside room "r1" with Alice's message loaded. -/
def st1 : ClientState :=
  { currentRoom := some roomR, currentUser := some bob, members := [],
    messages := [msgA], typingUsers := [],
    store := { room := some roomR, user := some bob }, toasts := [] }

/-- C1 counterexample. Bob (not the author) deletes Alice's message "m1" in
room "r1": the backend delete matches no row (the message stays in the
database), the operation reports no error, so no "Delete failed" toast is
emitted -- and the message is nevertheless removed from the local list. The
claim instead requires a DeleteFailed signal and the message to remain in the
local list. -/
theorem c1_counterexample :
    msgA ∈ (deleteMessage db1 st1 "m1" none).1.messages ∧
    (deleteMessage db1 st1 "m1" none).2.toasts = [] ∧
    msgA ∉ (deleteMessage db1 st1 "m1" none).2.messages := by decide

/-- C1 (amended): the backend delete of `deleteMessage` is constrained by the
current room and user -- a row is removed from the database only when id, room
and author all match, so a non-author delete removes nothing remotely.
A "Delete failed" toast is emitted exactly when the backend reports an error,
and then the local list is untouched; on a non-error delete (matching or not)
no failure is signalled and the id is filtered out of the local list. -/
theorem deleteMessage_constrained (db : DB) (st : ClientState) (room : Room)
    (user : UserInfo) (id : String) (err : Option String)
    (hr : st.currentRoom = some room) (hu : st.currentUser = some user) :
    (∀ msg, err = some msg →
      deleteMessage db st id err =
        (db, pushToast st
          { title := "Delete failed", description := msg, destructive := true })) ∧
    (err = none →
      (∀ m, m ∈ (deleteMessage db st id err).1.messages ↔
        m ∈ db.messages ∧ ¬(m.id = id ∧ m.room_id = room.id ∧ m.user_id = user.id)) ∧
      (deleteMessage db st id err).2.messages =
        st.messages.filter (fun m => m.id != id) ∧
      (deleteMessage db st id err).2.toasts = st.toasts) := by
  constructor
  · intro msg hmsg
    simp [deleteMessage, hr, hu, hmsg]
  · intro hnone
    refine ⟨?_, ?_, ?_⟩
    · intro m
      simp only [deleteMessage, hr, hu, hnone]
      simp [List.mem_filter]
      tauto
    · simp [deleteMessage, hr, hu, hnone]
    · simp [deleteMessage, hr, hu, hnone]

/-- C1 witness: the amended theorem applied to Bob deleting Alice's message. -/
theorem deleteMessage_constrained_witness :
    (msgA ∈ (deleteMessage db1 st1 "m1" none).1.messages ↔
      msgA ∈ db1.messages ∧
        ¬(msgA.id = "m1" ∧ msgA.room_id = roomR.id ∧ msgA.user_id = bob.id)) ∧
    (deleteMessage db1 st1 "m1" none).2.toasts = st1.toasts :=
  ⟨(((deleteMessage_constrained db1 st1 roomR bob "m1" none rfl rfl).2 rfl).1 msgA),
   ((deleteMessage_constrained db1 st1 roomR bob "m1" none rfl rfl).2 rfl).2.2⟩

/-- C4 counterexample: a client state whose typing indicator list is non-empty.
`leaveRoom` resets room, user, members and messages, but the `typingUsers`
cache is left as it was, contradicting the claim that leaveRoom clears the
typing cache. -/
theorem c4_counterexample :
    (leaveRoom db1
      { st1 with typingUsers := ["Alice"] } 5).2.typingUsers = ["Alice"] ∧
    ¬((leaveRoom db1 { st1 with typingUsers := ["Alice"] } 5).2.typingUsers = []) := by
  decide

/-- C4 (amended): `leaveRoom` clears the local session (room and user become
none), clears the members and messages caches and erases both persisted
entries, but leaves the in-memory `typingUsers` list unchanged; re-running the
hook initialisation on the cleared store (a reload) yields the full Anonymous
state -- no room, no user, empty members, messages and typing caches -- so a
reload after an explicit leave never resumes the old session. -/
theorem leaveRoom_reload_anonymous (db : DB) (st : ClientState) (now : Nat) :
    (leaveRoom db st now).2.currentRoom = none ∧
    (leaveRoom db st now).2.currentUser = none ∧
    (leaveRoom db st now).2.members = [] ∧
    (leaveRoom db st now).2.messages = [] ∧
    (leaveRoom db st now).2.store = { room := none, user := none } ∧
    (leaveRoom db st now).2.typingUsers = st.typingUsers ∧
    initClientState (leaveRoom db st now).2.store =
      { currentRoom := none, currentUser := none, members := [], messages := [],
        typingUsers := [], store := { room := none, user := none },
        toasts := [] } :=
  ⟨rfl, rfl, rfl, rfl, rfl, rfl, rfl⟩

/-- C6 counterexample: room "r1" holds two online members stored in the order
joined_at = 5 then joined_at = 3. `loadMembers` requests no ordering, so the
member list comes back in that stored order, which is not ascending by
joined_at -- contradicting the ordering part of the claim. -/
theorem c6_counterexample :
    ((loadMembers
        { rooms := [roomR],
          room_members :=
            [{ id := "ma", room_id := "r1", user_id := "ua", display_name := "A",
               joined_at := 5, last_seen_at := 5, is_online := true,
               is_typing := false },
             { id := "mb", room_id := "r1", user_id := "ub", display_name := "B",
               joined_at := 3, last_seen_at := 3, is_online := true,
               is_typing := false }],
          messages := [] } st0 "r1").members.map RoomMember.joined_at = [5, 3]) ∧
    ¬ List.Sorted (fun a b => a ≤ b)
        ((loadMembers
        { rooms := [roomR],
          room_members :=
            [{ id := "ma", room_id := "r1", user_id := "ua", display_name := "A",
               joined_at := 5, last_seen_at := 5, is_online := true,
               is_typing := false },
             { id := "mb", room_id := "r1", user_id := "ub", display_name := "B",
               joined_at := 3, last_seen_at := 3, is_online := true,
               is_typing := false }],
          messages := [] } st0 "r1").members.map RoomMember.joined_at) := by
  decide

/-- C6 (amended): `loadMembers` returns exactly the members of the requested
room that have `is_online = true`; no ordering is requested, so the rows keep
the backend (stored) order -- the result is a sublist of the stored table. -/
theorem loadMembers_online_members (db : DB) (st : ClientState) (roomId : String) :
    (∀ m : RoomMember, m ∈ (loadMembers db st roomId).members ↔
      m ∈ db.room_members ∧ m.room_id = roomId ∧ m.is_online = true) ∧
    List.Sublist (loadMembers db st roomId).members db.room_members := by
  constructor
  · intro m
    simp [loadMembers, List.mem_filter, and_assoc]
  · exact List.filter_sublist _

/-- C10: the messages INSERT handler appends the event row to the previous
list unconditionally, with no de-duplication by id: the count of rows carrying
the event's id always grows by one, so an id already present afterwards occurs
at least twice. -/
theorem onMessageInsert_no_dedup (st : ClientState) (row : Message) :
    (onMessageInsert st row).messages = st.messages ++ [row] ∧
    (onMessageInsert st row).messages.countP (fun m => m.id == row.id) =
      st.messages.countP (fun m => m.id == row.id) + 1 ∧
    (1 ≤ st.messages.countP (fun m => m.id == row.id) →
      2 ≤ (onMessageInsert st row).messages.countP (fun m => m.id == row.id)) := by
  refine ⟨rfl, ?_, ?_⟩
  · simp [onMessageInsert, List.countP_append]
  · intro h
    have h2 : (onMessageInsert st row).messages.countP (fun m => m.id == row.id) =
        st.messages.countP (fun m => m.id == row.id) + 1 := by
      simp [onMessageInsert, List.countP_append]
    omega

/-- C10 witness: the baseline snapshot of room "r1" already contains Alice's
message; when the INSERT notification for that same row arrives, the local
list holds two entries with id "m1". -/
theorem onMessageInsert_no_dedup_witness :
    2 ≤ ((onMessageInsert (loadMessages db1 (initClientState
        { room := some roomR, user := some bob }) "r1") msgA).messages.countP
        (fun m => m.id == msgA.id)) :=
  (onMessageInsert_no_dedup (loadMessages db1 (initClientState
        { room := some roomR, user := some bob }) "r1") msgA).2.2 (by decide)

/-- C5: the typing flag is debounced as schedule-or-replace with a single
timer. A keystroke (a `messageText` change to a non-empty string) at time `t`
writes `is_typing=true` remotely and replaces whatever clear was pending with
one at `t + 1500` ms; with no further keystrokes the flag goes false exactly
once 1500 ms have elapsed. Concretely: a keystroke at t=0 with silence keeps
the flag true strictly before 1500 and clears it at 1500; keystrokes at t=0
and t=1000 followed by silence keep it true at 1500 and clear it at 2500. -/
theorem typing_debounce_schedule_or_replace (s : TypingDebounce) (t : Nat)
    (text : String) (h : text ≠ "") :
    ((typingOnChange t text s).remoteTyping = true ∧
     (typingOnChange t text s).pendingClear = some (t + 1500)) ∧
    ((∀ u, u < 1500 → (typingElapse u (typingOnChange 0 "h" s)).remoteTyping = true) ∧
     (typingElapse 1500 (typingOnChange 0 "h" s)).remoteTyping = false) ∧
    ((typingElapse 1500
        (typingOnChange 1000 "hi" (typingOnChange 0 "h" s))).remoteTyping = true ∧
     (∀ u, u < 2500 → (typingElapse u
        (typingOnChange 1000 "hi" (typingOnChange 0 "h" s))).remoteTyping = true) ∧
     (typingElapse 2500
        (typingOnChange 1000 "hi" (typingOnChange 0 "h" s))).remoteTyping = false) := by
  have hb : (text == "") = false := beq_eq_false_iff_ne.mpr h
  have h1 : (("h" : String) == "") = false := by decide
  have h2 : (("hi" : String) == "") = false := by decide
  refine ⟨⟨?_, ?_⟩, ⟨?_, ?_⟩, ?_, ?_, ?_⟩
  · simp [typingOnChange, hb]
  · simp [typingOnChange, hb]
  · intro u hu
    have hnot : ¬(0 + 1500 ≤ u) := by omega
    simp [typingOnChange, typingElapse, h1, hnot]
  · simp [typingOnChange, typingElapse, h1]
  · have hnot : ¬(1000 + 1500 ≤ 1500) := by omega
    simp [typingOnChange, typingElapse, h1, h2, hnot]
  · intro u hu
    have hnot : ¬(1000 + 1500 ≤ u) := by omega
    simp [typingOnChange, typingElapse, h1, h2, hnot]
  · simp [typingOnChange, typingElapse, h1, h2]

/-- C5 witness: the schedule-or-replace theorem applied at a concrete
keystroke from the idle state. -/
theorem typing_debounce_witness :
    (typingOnChange 0 "h" { remoteTyping := false, pendingClear := none }).remoteTyping = true ∧
    (typingOnChange 0 "h" { remoteTyping := false, pendingClear := none }).pendingClear =
      some (0 + 1500) :=
  (typing_debounce_schedule_or_replace
    { remoteTyping := false, pendingClear := none } 0 "h" (by decide)).1

/-- C9: when `joinRoom` fails -- the room code is unknown, or the member
insert is rejected with the name-conflict code 23505 -- a destructive toast is
emitted and the local state is otherwise unchanged: starting from the
Anonymous state, currentRoom and currentUser stay null and nothing is written
to the persisted store. -/
theorem joinRoom_failure_atomic (db : DB) (st : ClientState)
    (code name uid mid : String) (now : Nat) (err : Option String)
    (hr : st.currentRoom = none) (hu : st.currentUser = none) :
    (db.rooms.find? (fun r => r.code == jsToUpperCase code) = none →
      joinRoom db st code name uid mid now err =
        (db, pushToast st (errorToast "Room not found")) ∧
      (joinRoom db st code name uid mid now err).2.currentRoom = none ∧
      (joinRoom db st code name uid mid now err).2.currentUser = none ∧
      (joinRoom db st code name uid mid now err).2.store = st.store) ∧
    (∀ room, db.rooms.find? (fun r => r.code == jsToUpperCase code) = some room →
      err = some "23505" →
      joinRoom db st code name uid mid now err =
        (db, pushToast st (errorToast "That name is already taken in this room.")) ∧
      (joinRoom db st code name uid mid now err).2.currentRoom = none ∧
      (joinRoom db st code name uid mid now err).2.currentUser = none ∧
      (joinRoom db st code name uid mid now err).2.store = st.store) := by
  constructor
  · intro hfind
    refine ⟨?_, ?_, ?_, ?_⟩ <;> simp [joinRoom, hfind, pushToast, hr, hu]
  · intro room hfind herr
    refine ⟨?_, ?_, ?_, ?_⟩ <;> simp [joinRoom, hfind, herr, pushToast, hr, hu]

/-- C9 witness: an unknown code on a database holding only room "ABCDEF", and
a 23505 name conflict on a successful lookup, both from the Anonymous state. -/
theorem joinRoom_failure_atomic_witness :
    (joinRoom dbR st0 "NOPE" "Bob" "u1" "me1" 3 none).2.store = st0.store ∧
    (joinRoom dbR st0 "abcdef" "Bob" "u1" "me1" 3 (some "23505")).2.currentUser = none :=
  ⟨((joinRoom_failure_atomic dbR st0 "NOPE" "Bob" "u1" "me1" 3 none rfl rfl).1
      (by decide)).2.2.2,
   ((joinRoom_failure_atomic dbR st0 "abcdef" "Bob" "u1" "me1" 3 (some "23505") rfl rfl).2
      roomR (by decide) rfl).2.2.1⟩

/-- The database after the same browser joins room "ABCDEF" twice as "Alice":
the hook mints a fresh user id on every call (`"user-" + Date.now() + "-" +
Math.random()...`), modelled by the two distinct fresh ids. -/
def dbRejoin : DB :=
  (joinRoom (joinRoom dbR st0 "ABCDEF" "Alice" "user-1-a" "mem1" 1 none).1
    st0 "ABCDEF" "Alice" "user-2-b" "mem2" 2 none).1

/-- C3 counterexample: re-joining the same room from the same browser inserts
a second member row with a new user id instead of updating the existing row:
after two joins the room holds two member rows, both named "Alice". The claim
requires the second join to update the row of the first, keeping one row. -/
theorem c3_counterexample :
    (dbRejoin.room_members.filter (fun m => m.room_id == "r1")).length = 2 ∧
    ¬((dbRejoin.room_members.filter (fun m => m.room_id == "r1")).length ≤ 1) ∧
    dbRejoin.room_members.map RoomMember.display_name = ["Alice", "Alice"] ∧
    dbRejoin.room_members.map RoomMember.user_id = ["user-1-a", "user-2-b"] := by
  decide

/-- C3 (amended): `joinRoom` performs a plain insert with the freshly minted
user id: a successful join appends exactly one new member row (online, not
typing, joined and last seen now) and leaves every existing row unchanged, so
the room's member-row count grows by one on every join, including re-joins. -/
theorem joinRoom_plain_insert (db : DB) (st : ClientState)
    (code name uid mid : String) (now : Nat) (room : Room)
    (hfind : db.rooms.find? (fun r => r.code == jsToUpperCase code) = some room) :
    (joinRoom db st code name uid mid now none).1.room_members =
      db.room_members ++
        [{ id := mid, room_id := room.id, user_id := uid, display_name := name,
           joined_at := now, last_seen_at := now, is_online := true,
           is_typing := false }] ∧
    ((joinRoom db st code name uid mid now none).1.room_members.filter
        (fun m => m.room_id == room.id)).length =
      (db.room_members.filter (fun m => m.room_id == room.id)).length + 1 ∧
    (joinRoom db st code name uid mid now none).2.currentUser =
      some { id := uid, displayName := name } := by
  refine ⟨?_, ?_, ?_⟩
  · simp [joinRoom, hfind]
  · simp [joinRoom, hfind, List.filter_append]
  · simp [joinRoom, hfind, setSession]

/-- C3 witness: the plain-insert theorem applied to the first join of
`dbRejoin`. -/
theorem joinRoom_plain_insert_witness :
    ((joinRoom dbR st0 "ABCDEF" "Alice" "user-1-a" "mem1" 1 none).1.room_members.filter
        (fun m => m.room_id == roomR.id)).length =
      (dbR.room_members.filter (fun m => m.room_id == roomR.id)).length + 1 :=
  (joinRoom_plain_insert dbR st0 "ABCDEF" "Alice" "user-1-a" "mem1" 1 roomR
    (by decide)).2.1

/-- `joinRoom` never touches the `rooms` table. -/
theorem joinRoom_rooms_unchanged (db : DB) (st : ClientState)
    (code name uid mid : String) (now : Nat) (err : Option String) :
    (joinRoom db st code name uid mid now err).1.rooms = db.rooms := by
  unfold joinRoom
  rcases hfind : db.rooms.find? (fun r => r.code == jsToUpperCase code) with _ | room
  · rw [hfind]
  · rw [hfind]
    rcases err with _ | c
    · rfl
    · by_cases hc : (c == "23505") = true
      · simp [hc]
      · simp [hc]

/-- A code absent from the table makes the uniqueness check of the insert
pass. -/
theorem any_code_eq_false_of_not_mem (rooms : List Room) (code : String)
    (h : code ∉ rooms.map Room.code) :
    rooms.any (fun r => r.code == code) = false := by
  rw [List.any_eq_false]
  intro r hr
  simp only [beq_iff_eq]
  intro hrc
  exact h (List.mem_map.mpr ⟨r, hr, hrc⟩)

/-- C2 counterexample: the generated code "ABCDEF" (random digits
10,11,12,13,14,15) collides with the existing room. `createRoom` makes a
single attempt: it surfaces the uniqueness error as a toast and creates no
room -- there is no regeneration, no retry and no bound of 5 attempts before
failing. -/
theorem c2_counterexample :
    (createRoom dbR st0 "My Room" "Alice" [10, 11, 12, 13, 14, 15]
        "r2" "u1" "me1" 5 none).1.rooms = [roomR] ∧
    (createRoom dbR st0 "My Room" "Alice" [10, 11, 12, 13, 14, 15]
        "r2" "u1" "me1" 5 none).2.toasts =
      [errorToast "duplicate key value violates unique constraint"] ∧
    (createRoom dbR st0 "My Room" "Alice" [10, 11, 12, 13, 14, 15]
        "r2" "u1" "me1" 5 none).1.room_members = [] := by
  decide

/-- C2 (amended): `createRoom` makes exactly one insertion attempt with one
generated code; a uniqueness conflict immediately surfaces an error toast,
leaving the database unchanged (no retry, no regenerated code). It never
creates two rooms with the same code: the unique constraint rejects a
duplicate, so distinctness of the stored codes is preserved. -/
theorem createRoom_no_retry_and_unique (db : DB) (st : ClientState)
    (roomName displayName : String) (digits : List Nat)
    (rid uid mid : String) (now : Nat) (err : Option String) :
    (generateRoomCode digits ∈ db.rooms.map Room.code →
      (createRoom db st roomName displayName digits rid uid mid now err).1 = db ∧
      (createRoom db st roomName displayName digits rid uid mid now err).2 =
        pushToast st (errorToast "duplicate key value violates unique constraint")) ∧
    ((db.rooms.map Room.code).Nodup →
      ((createRoom db st roomName displayName digits rid uid mid now err).1.rooms.map
        Room.code).Nodup) := by
  constructor
  · intro hmem
    have hany : db.rooms.any (fun r => r.code == generateRoomCode digits) = true := by
      rw [List.any_eq_true]
      rcases List.mem_map.mp hmem with ⟨r, hrmem, hrcode⟩
      exact ⟨r, hrmem, by simp [hrcode]⟩
    refine ⟨?_, ?_⟩ <;> simp [createRoom, roomsInsert, hany]
  · intro hnodup
    by_cases hfull : db.rooms.any (fun r => r.code == generateRoomCode digits) = true
    · have hdb : (createRoom db st roomName displayName digits rid uid mid
          now err).1 = db := by
        simp [createRoom, roomsInsert, hfull]
      rw [hdb]
      exact hnodup
    · have hfalse : db.rooms.any (fun r => r.code == generateRoomCode digits) = false :=
        Bool.eq_false_iff.mpr hfull
      have hnotmem : generateRoomCode digits ∉ db.rooms.map Room.code := by
        intro hmem
        apply hfull
        rw [List.any_eq_true]
        rcases List.mem_map.mp hmem with ⟨r, hrmem, hrcode⟩
        exact ⟨r, hrmem, by simp [hrcode]⟩
      have hrooms : (createRoom db st roomName displayName digits rid uid mid
          now err).1.rooms =
          db.rooms ++
            [{ id := rid, code := generateRoomCode digits,
               name := (if roomName == "" then "Room " ++ generateRoomCode digits
                 else roomName),
               created_at := now }] := by
        simp [createRoom, roomsInsert, hfalse, joinRoom_rooms_unchanged]
      rw [hrooms]
      simp only [List.map_append, List.map_cons, List.map_nil]
      rw [List.nodup_append]
      refine ⟨hnodup, List.nodup_singleton _, ?_⟩
      simp only [List.disjoint_singleton]
      exact hnotmem

/-- C2 witness: the amended theorem at the colliding draw of the
counterexample -- the database is returned unchanged and code distinctness is
preserved. -/
theorem createRoom_no_retry_witness :
    (createRoom dbR st0 "My Room" "Alice" [10, 11, 12, 13, 14, 15]
        "r2" "u1" "me1" 5 none).1 = dbR ∧
    ((createRoom dbR st0 "My Room" "Alice" [10, 11, 12, 13, 14, 15]
        "r2" "u1" "me1" 5 none).1.rooms.map Room.code).Nodup :=
  ⟨((createRoom_no_retry_and_unique dbR st0 "My Room" "Alice" [10, 11, 12, 13, 14, 15]
      "r2" "u1" "me1" 5 none).1 (by decide)).1,
   (createRoom_no_retry_and_unique dbR st0 "My Room" "Alice" [10, 11, 12, 13, 14, 15]
      "r2" "u1" "me1" 5 none).2 (by decide)⟩

/-- Character list of the JavaScript base-36 rendering. -/
theorem jsToString36_toList (digits : List Nat) :
    (jsToString36 digits).toList =
      if digits.isEmpty then ['0'] else '0' :: '.' :: digits.map base36Char := by
  cases digits with
  | nil => rfl
  | cons d ds => rfl

/-- Character list of a generated room code: the upper-cased first six base-36
digits of the random draw. -/
theorem generateRoomCode_toList (digits : List Nat) :
    (generateRoomCode digits).toList =
      ((digits.map base36Char).take 6).map Char.toUpper := by
  unfold generateRoomCode jsToUpperCase jsSubstring
  rw [jsToString36_toList]
  cases digits with
  | nil => rfl
  | cons d ds => rfl

/-- A generated room code has min 6 (number of digits of the draw)
characters. -/
theorem generateRoomCode_length (digits : List Nat) :
    (generateRoomCode digits).length = min 6 digits.length := by
  have h : (generateRoomCode digits).length = (generateRoomCode digits).toList.length := rfl
  rw [h, generateRoomCode_toList]
  simp [List.length_take]

/-- Each upper-cased base-36 digit is an ASCII digit or an upper-case
letter. -/
theorem base36Char_toUpper_alnum :
    ∀ d, d < 36 → ((base36Char d).toUpper.isDigit = true ∨
      (base36Char d).toUpper.isUpper = true) := by decide

/-- C7 counterexample: `Math.random()` can return exactly 0.5, whose base-36
rendering is "0.i" (a single fractional digit, 18). The generated code is then
"I": createRoom creates a room whose code has length 1, not 6 -- while the
default name "Room I" is still derived from the code. -/
theorem c7_counterexample :
    (createRoom { rooms := [], room_members := [], messages := [] } st0 ""
        "Alice" [18] "r9" "u9" "me9" 7 none).1.rooms.map Room.code = ["I"] ∧
    ¬(("I" : String).length = 6) ∧
    (createRoom { rooms := [], room_members := [], messages := [] } st0 ""
        "Alice" [18] "r9" "u9" "me9" 7 none).1.rooms.map Room.name = ["Room I"] := by
  decide

/-- C7 (amended): a generated room code is the upper-case of the first
min(6, k) base-36 fractional digits of the random draw (k digits in all): its
characters are always ASCII digits or upper-case letters, its length is
min 6 k -- exactly 6 whenever the draw has at least 6 digits, shorter
otherwise -- and when no name is given the created room is named
"Room " followed by the code. -/
theorem createRoom_code_shape_default_name (db : DB) (st : ClientState)
    (displayName : String) (digits : List Nat) (rid uid mid : String)
    (now : Nat) (err : Option String)
    (hd : ∀ d ∈ digits, d < 36)
    (hfree : generateRoomCode digits ∉ db.rooms.map Room.code) :
    (generateRoomCode digits).length = min 6 digits.length ∧
    (6 ≤ digits.length → (generateRoomCode digits).length = 6) ∧
    (∀ c ∈ (generateRoomCode digits).toList,
      c.isDigit = true ∨ c.isUpper = true) ∧
    (createRoom db st "" displayName digits rid uid mid now err).1.rooms =
      db.rooms ++
        [{ id := rid, code := generateRoomCode digits,
           name := "Room " ++ generateRoomCode digits, created_at := now }] := by
  refine ⟨generateRoomCode_length digits, ?_, ?_, ?_⟩
  · intro h6
    rw [generateRoomCode_length]
    omega
  · intro c hc
    rw [generateRoomCode_toList] at hc
    rcases List.mem_map.mp hc with ⟨c0, hc0, rfl⟩
    rcases List.mem_map.mp (List.mem_of_mem_take hc0) with ⟨d, hdmem, rfl⟩
    exact base36Char_toUpper_alnum d (hd d hdmem)
  · have hfalse := any_code_eq_false_of_not_mem db.rooms (generateRoomCode digits) hfree
    simp [createRoom, roomsInsert, hfalse, joinRoom_rooms_unchanged]

/-- C7 witness: the draw 10,11,12,13,14,15 yields the six-character code
"ABCDEF"; creating with an empty name on an empty directory stores the room
under the default name. -/
theorem createRoom_code_shape_witness :
    (generateRoomCode [10, 11, 12, 13, 14, 15]).length = 6 ∧
    (createRoom { rooms := [], room_members := [], messages := [] } st0 ""
        "Alice" [10, 11, 12, 13, 14, 15] "r9" "u9" "me9" 7 none).1.rooms =
      ({ rooms := [], room_members := [], messages := [] } : DB).rooms ++
        [{ id := "r9", code := generateRoomCode [10, 11, 12, 13, 14, 15],
           name := "Room " ++ generateRoomCode [10, 11, 12, 13, 14, 15],
           created_at := 7 }] :=
  ⟨(createRoom_code_shape_default_name { rooms := [], room_members := [], messages := [] } st0 "Alice" [10, 11, 12, 13, 14, 15] "r9" "u9" "me9" 7 none (by decide) (by decide)).2.1 (by decide), (createRoom_code_shape_default_name { rooms := [], room_members := [], messages := [] } st0 "Alice" [10, 11, 12, 13, 14, 15] "r9" "u9" "me9" 7 none (by decide) (by decide)).2.2.2⟩

/-- Stripping leading whitespace then trailing whitespace leaves a list whose
first element, if any, is not whitespace. -/
theorem dropWhile_rdropWhile_dropWhile (l : List Char) :
    List.dropWhile isJsWhitespace
        (List.rdropWhile isJsWhitespace (List.dropWhile isJsWhitespace l)) =
      List.rdropWhile isJsWhitespace (List.dropWhile isJsWhitespace l) := by
  rw [List.dropWhile_eq_self_iff]
  intro hl
  have hpre : List.IsPrefix
      (List.rdropWhile isJsWhitespace (List.dropWhile isJsWhitespace l))
      (List.dropWhile isJsWhitespace l) := List.rdropWhile_prefix _ _
  have hlen : 0 < (List.dropWhile isJsWhitespace l).length :=
    lt_of_lt_of_le hl hpre.length_le
  have hhead := List.dropWhile_get_zero_not (p := isJsWhitespace) l hlen
  have hg : (List.rdropWhile isJsWhitespace
      (List.dropWhile isJsWhitespace l)).get ⟨0, hl⟩ =
      (List.dropWhile isJsWhitespace l).get ⟨0, hlen⟩ := by
    have hx := List.IsPrefix.getElem hpre (n := 0) hl
    simpa [List.get_eq_getElem] using hx
  rw [hg]
  exact hhead

/-- JavaScript trim is idempotent. -/
theorem jsTrim_idem (s : String) : jsTrim (jsTrim s) = jsTrim s := by
  calc jsTrim (jsTrim s)
      = String.mk (List.rdropWhile isJsWhitespace
          (List.dropWhile isJsWhitespace
            (List.rdropWhile isJsWhitespace
              (List.dropWhile isJsWhitespace s.toList)))) := rfl
    _ = String.mk (List.rdropWhile isJsWhitespace
          (List.rdropWhile isJsWhitespace
            (List.dropWhile isJsWhitespace s.toList))) := by
          rw [dropWhile_rdropWhile_dropWhile]
    _ = String.mk (List.rdropWhile isJsWhitespace
          (List.dropWhile isJsWhitespace s.toList)) := by
          rw [List.rdropWhile_idempotent]
    _ = jsTrim s := rfl

/-- C8: with an active session, `sendMessage` is a no-op -- database and
client state unchanged -- when the text trims to empty, and otherwise appends
exactly the trimmed message to the messages table (client state unchanged
either way). Consequently, if every stored message is non-empty after
trimming, the history loaded after a send still contains no
empty-after-trim message. -/
theorem sendMessage_spec (db : DB) (st : ClientState) (text fid : String)
    (now : Nat) (room : Room) (user : UserInfo)
    (hr : st.currentRoom = some room) (hu : st.currentUser = some user) :
    (jsTrim text = "" → sendMessage db st text fid now = (db, st)) ∧
    (jsTrim text ≠ "" →
      (sendMessage db st text fid now).1.messages = db.messages ++
        [{ id := fid, room_id := room.id, user_id := user.id,
           display_name := user.displayName, text := jsTrim text,
           created_at := now }] ∧
      (sendMessage db st text fid now).2 = st) ∧
    ((∀ m ∈ db.messages, jsTrim m.text ≠ "") →
      ∀ m ∈ (loadMessages (sendMessage db st text fid now).1 st room.id).messages,
        jsTrim m.text ≠ "") := by
  refine ⟨?_, ?_, ?_⟩
  · intro he
    have hb : (jsTrim text == "") = true := beq_iff_eq.mpr he
    simp [sendMessage, hr, hu, hb]
  · intro hne
    have hb : (jsTrim text == "") = false := beq_eq_false_iff_ne.mpr hne
    constructor <;> simp [sendMessage, hr, hu, hb]
  · intro hinv m hm
    have hm2 : m ∈ List.insertionSort (fun a b => a.created_at ≤ b.created_at)
        (((sendMessage db st text fid now).1.messages).filter
          (fun x => x.room_id == room.id)) := hm
    have hm3 : m ∈ ((sendMessage db st text fid now).1.messages).filter
        (fun x => x.room_id == room.id) :=
      (List.perm_insertionSort (fun a b => a.created_at ≤ b.created_at) _).mem_iff.mp hm2
    have hm4 : m ∈ (sendMessage db st text fid now).1.messages :=
      (List.mem_filter.mp hm3).1
    by_cases he : jsTrim text = ""
    · have hb : (jsTrim text == "") = true := beq_iff_eq.mpr he
      have hdb : (sendMessage db st text fid now).1 = db := by
        simp [sendMessage, hr, hu, hb]
      rw [hdb] at hm4
      exact hinv m hm4
    · have hb : (jsTrim text == "") = false := beq_eq_false_iff_ne.mpr he
      have hmsgs : (sendMessage db st text fid now).1.messages = db.messages ++
          [{ id := fid, room_id := room.id, user_id := user.id,
             display_name := user.displayName, text := jsTrim text,
             created_at := now }] := by
        simp [sendMessage, hr, hu, hb]
      rw [hmsgs] at hm4
      rcases List.mem_append.mp hm4 with h | h
      · exact hinv m h
      · have hmeq := List.mem_singleton.mp h
        subst hmeq
        show jsTrim (jsTrim text) ≠ ""
        rw [jsTrim_idem]
        exact he

/-- C8 witness: in Bob's session, sending "   " changes nothing, and sending
"  hi  " stores the trimmed text. -/
theorem sendMessage_spec_witness :
    sendMessage dbR st1 "   " "mx" 9 = (dbR, st1) ∧
    (sendMessage dbR st1 "  hi  " "mx" 9).1.messages = dbR.messages ++
      [{ id := "mx", room_id := roomR.id, user_id := bob.id,
         display_name := bob.displayName, text := jsTrim "  hi  ",
         created_at := 9 }] :=
  ⟨(sendMessage_spec dbR st1 "   " "mx" 9 roomR bob rfl rfl).1 (by decide),
   ((sendMessage_spec dbR st1 "  hi  " "mx" 9 roomR bob rfl rfl).2.1 (by decide)).1⟩
